import Mathlib

/-!
# Chat client (`public/script.js`): shallow embedding and verified properties

The browser script is modelled as pure functions over an explicit client state.
JavaScript strings are Lean `String`s, a value that may be `undefined`/`null`
is an `Option`, and a number that may be `NaN` has a case for it.  A pointer coordinate
or clock field is modelled by the integer it holds, and its conversion to a string follows
`Number::toString`: plain decimal digits below `10^21`, exponent notation from there on.
A string is the sequence of its
characters; the script singles out only ASCII characters.  The socket is the list of the
arguments `ws.send` was called with, before `JSON.stringify`; the readings of the wall clock
and the `Date` constructor on a string are inputs of the handlers.
-/

namespace LiveChat

/-! ## Strings -/

/-- The double quote character (code 34). -/
def dquote : Char := Char.ofNat 34

/-- The single quote character (code 39). -/
def squote : Char := Char.ofNat 39

/-- White space and line terminators removed by `String.prototype.trim`. -/
def isJsWhitespace (c : Char) : Bool :=
  c.toNat = 0x09 || c.toNat = 0x0A || c.toNat = 0x0B || c.toNat = 0x0C || c.toNat = 0x0D ||
  c.toNat = 0x20 || c.toNat = 0xA0 || c.toNat = 0x1680 ||
  (0x2000 ≤ c.toNat && c.toNat ≤ 0x200A) ||
  c.toNat = 0x2028 || c.toNat = 0x2029 || c.toNat = 0x202F || c.toNat = 0x205F ||
  c.toNat = 0x3000 || c.toNat = 0xFEFF

/-- The method `s.trim()`: strips white space from both ends. -/
def jsTrim (s : String) : String :=
  ⟨((s.data.dropWhile isJsWhitespace).reverse.dropWhile isJsWhitespace).reverse⟩

/-- Truthiness of a string that may be absent: `undefined`, `null` and `""` are falsy. -/
def truthyStr : Option String → Bool
  | some s => s != ""
  | none => false

/-- The call `s.replace(/c/g, r)` for a one-character pattern `c`: every occurrence of `c`
is replaced by `r`, scanning left to right. -/
def replaceAll (c : Char) (r : String) (s : String) : String :=
  ⟨s.data.flatMap (fun x => if x = c then r.data else [x])⟩

/-- The function `escapeHtml` on a string: five chained global replaces, `&` first. -/
def escapeHtml (input : String) : String :=
  replaceAll squote "&#039;"
    (replaceAll dquote "&quot;"
      (replaceAll '>' "&gt;"
        (replaceAll '<' "&lt;"
          (replaceAll '&' "&amp;" input))))

/-- The exception an expression of the script can throw. -/
inductive JsError where
  | typeError
  deriving DecidableEq, Repr

/-- The function `escapeHtml` applied to a value that may be `undefined`/`null`:
`unsafe.replace` throws a `TypeError` on a missing value. -/
def escapeHtmlOpt : Option String → Except JsError String
  | some s => .ok (escapeHtml s)
  | none => .error .typeError

/-- Character-wise substitution of the escaping contract: the five special characters are
mapped to their entities, every other character to itself. -/
def escapeChar (c : Char) : String :=
  if c = '&' then "&amp;"
  else if c = '<' then "&lt;"
  else if c = '>' then "&gt;"
  else if c = dquote then "&quot;"
  else if c = squote then "&#039;"
  else ⟨[c]⟩

/-- Single-pass escaping: the contract that `escapeHtml` is compared with. -/
def escapeSinglePass (s : String) : String :=
  ⟨s.data.flatMap (fun c => (escapeChar c).data)⟩

/-- The five entities produced by escaping. -/
def entities : List String := ["&amp;", "&lt;", "&gt;", "&quot;", "&#039;"]

/-! ## Numbers and dates -/

/-- A JavaScript number holding a natural number or `NaN`. -/
inductive Num where
  | nat (n : Nat)
  | nan
  deriving DecidableEq, Repr

/-- The comparison `a >= b`; false when `a` is `NaN`. -/
def Num.ge (a : Num) (b : Nat) : Bool :=
  match a with
  | .nat x => decide (b ≤ x)
  | .nan => false

/-- The comparison `a < b`; false when `a` is `NaN`. -/
def Num.lt (a : Num) (b : Nat) : Bool :=
  match a with
  | .nat x => decide (x < b)
  | .nan => false

/-- The remainder `a % b`; `NaN` when `a` is `NaN`. -/
def Num.mod (a : Num) (b : Nat) : Num :=
  match a with
  | .nat x => .nat (x % b)
  | .nan => .nan

/-- Truthiness of a number: `0` and `NaN` are falsy. -/
def Num.truthy (a : Num) : Bool :=
  match a with
  | .nat x => x != 0
  | .nan => false

/-- String conversion of a number in a concatenation. -/
def Num.str (a : Num) : String :=
  match a with
  | .nat x => toString x
  | .nan => "NaN"

/-- The part of a `Date` the script reads: local hours and minutes (`NaN` on an invalid date). -/
structure Date where
  getHours : Num
  getMinutes : Num
  deriving DecidableEq, Repr

/-- The function `formatAMPM(date)`. -/
def formatAMPM (date : Date) : String :=
  let hours := date.getHours
  let minutes := date.getMinutes
  let ampm := if hours.ge 12 then "PM" else "AM"
  let hours := hours.mod 12
  let hours := if hours.truthy then hours else .nat 12
  let minutes : String := if minutes.lt 10 then "0" ++ minutes.str else minutes.str
  hours.str ++ ":" ++ minutes ++ " " ++ ampm

/-- A minute count written with exactly two decimal digits. -/
def twoDigits (m : Nat) : String :=
  ⟨[Nat.digitChar (m / 10), Nat.digitChar (m % 10)]⟩

/-- Decimal or hexadecimal value of a digit character, as `parseInt` reads it. -/
def digitValue (c : Char) : Option Nat :=
  if '0'.toNat ≤ c.toNat ∧ c.toNat ≤ '9'.toNat then some (c.toNat - 48)
  else if 'a'.toNat ≤ c.toNat ∧ c.toNat ≤ 'z'.toNat then some (c.toNat - 87)
  else if 'A'.toNat ≤ c.toNat ∧ c.toNat ≤ 'Z'.toNat then some (c.toNat - 55)
  else none

/-- Whether the character is a digit of the given radix. -/
def isRadixDigit (radix : Nat) (c : Char) : Bool :=
  match digitValue c with
  | some d => decide (d < radix)
  | none => false

/-- The call `parseInt(input)` without a radix: leading white space is skipped, a sign is
read, a `0x`/`0X` prefix selects radix 16, and the longest prefix of digits is the value;
`none` is `NaN`. -/
def parseInt (input : String) : Option Int :=
  let s := input.data.dropWhile isJsWhitespace
  let neg := decide (s.head? = some '-')
  let s := if s.head? = some '-' ∨ s.head? = some '+' then s.tail else s
  let hex := decide (s.take 2 = ['0', 'x'] ∨ s.take 2 = ['0', 'X'])
  let radix := if hex then 16 else 10
  let s := if hex then s.drop 2 else s
  let z := s.takeWhile (isRadixDigit radix)
  if z = [] then none
  else
    let mathInt := z.foldl (fun acc c => acc * radix + (digitValue c).getD 0) 0
    some (if neg then -(mathInt : Int) else (mathInt : Int))

/-! ## Data model -/

/-- The object `{ user, text }` of a reply draft or of a message's `replyTo` field; `text` is
missing when the message replied to carries none. -/
structure ReplyRef where
  user : String
  text : Option String
  deriving DecidableEq, Repr

/-- A message as the server delivers it: `text`, `image`, `time` and `replyTo` are optional. -/
structure Message where
  user : String
  text : Option String
  image : Option String
  time : Option String
  replyTo : Option ReplyRef
  deriving DecidableEq, Repr

/-- The outgoing object `{type: "message", user, text, time, replyTo?, image?}`. -/
structure Payload where
  user : String
  text : String
  time : String
  replyTo : Option ReplyRef
  image : Option String
  deriving DecidableEq, Repr

/-- An argument of `ws.send`, before `JSON.stringify`. -/
inductive Outgoing where
  | join (user : String)
  | message (payload : Payload)
  deriving DecidableEq, Repr

/-- A selected image file; `dataURL` is what `readAsDataURL` yields for it. -/
structure File where
  dataURL : String
  deriving DecidableEq, Repr

/-- A message `div` of the chat window: its classes, the `user` and `text` its drag handlers
close over, its `data-dragging` attribute, its `dataset.dragStartX` and its `innerHTML`. -/
structure Element where
  classList : List String
  draggable : Bool
  user : String
  text : Option String
  dataDragging : Option String
  dragStartX : Option String
  innerHTML : String
  deriving DecidableEq, Repr

/-- The state the script reads and writes: its two globals, the stored `chatUser` key, the
form fields, the chat window, the `#replyPreview` element (by its `innerHTML`), the calls of
`ws.send` so far, the file reads in flight and the alerts shown. -/
structure Client where
  currentUser : Option String
  replyTo : Option ReplyRef
  chatUser : Option String
  usernameValue : String
  usernameDisabled : Bool
  blurListeners : Nat
  messageValue : String
  imageFile : Option File
  chatWindow : List Element
  replyPreview : Option String
  sent : List Outgoing
  reading : List (Payload × File)
  alerts : List String
  deriving DecidableEq, Repr

/-- State of a handler when it stops, and the exception that stopped it, if any. -/
structure Result where
  state : Client
  error : Option JsError
  deriving DecidableEq, Repr

/-- A parsed server event, by its `type`. -/
inductive ServerEvent where
  | error (message : String)
  | joined (user : String)
  | init (messages : List Message)
  | new (message : Message)
  | other
  deriving DecidableEq, Repr

/-- The state after the top-level statements (lines 1-9), given the stored `chatUser`. -/
def initial (stored : Option String) : Client :=
  { currentUser := stored, replyTo := none, chatUser := stored, usernameValue := "",
    usernameDisabled := false, blurListeners := 0, messageValue := "", imageFile := none,
    chatWindow := [], replyPreview := none, sent := [], reading := [], alerts := [] }

/-! ## Rendering -/

/-- The string `content` built by `appendMessage` (lines 81-97).  `parseDate` is the `Date`
constructor on a string and `now` the value of `new Date()`. -/
def messageContent (parseDate : String → Date) (now : Date) (m : Message) :
    Except JsError String := do
  let msgTime := if truthyStr m.time then parseDate (m.time.getD "") else now
  let formattedTime := formatAMPM msgTime
  let safeText ← (if truthyStr m.text then escapeHtmlOpt m.text else pure "")
  let content := ""
  let content ← (match m.replyTo with
    | some replyToMsg => do
      let u ← escapeHtmlOpt (some replyToMsg.user)
      let t ← escapeHtmlOpt replyToMsg.text
      pure (content ++ "<div class=\"reply-preview\"><em>Replying to <strong>" ++ u ++
        "</strong>: " ++ t ++ "</em></div>")
    | none => pure content)
  let content := content ++ "<strong>" ++ m.user ++ "</strong>: " ++ safeText
  let content :=
    if truthyStr m.image then
      content ++ "<br><img src=\"" ++ m.image.getD "" ++
        "\" style=\"max-width: 100%; border-radius: 8px; margin-top: 5px;\" />"
    else content
  let content := content ++ "<div class=\"timestamp\">" ++ formattedTime ++ "</div>"
  pure content

/-- The `div` created by `appendMessage` (lines 57-79), before its `innerHTML` is set. -/
def newDiv (currentUser : Option String) (m : Message) : Element :=
  let isMe := decide (some m.user = currentUser)
  { classList := ["message", if isMe then "me" else "them"], draggable := true,
    user := m.user, text := m.text, dataDragging := none, dragStartX := none,
    innerHTML := "" }

/-- The function `appendMessage(user, text, imageUrl, time, replyToMsg)`: the `div` is appended
to the chat window after its `innerHTML` is set; an exception leaves the window as it was. -/
def appendMessage (parseDate : String → Date) (now : Date) (s : Client) (m : Message) :
    Result :=
  let div := newDiv s.currentUser m
  match messageContent parseDate now m with
  | .ok content =>
    ⟨{ s with chatWindow := s.chatWindow ++ [{ div with innerHTML := content }] }, none⟩
  | .error e => ⟨s, some e⟩

/-- The loop `data.messages.forEach(msg => appendMessage(...))`, from callback number `k`;
`clock k` is the value of `new Date()` in the `k`-th callback.  An exception ends the loop. -/
def forEachAppend (parseDate : String → Date) (clock : Nat → Date) :
    Nat → List Message → Client → Result
  | _, [], s => ⟨s, none⟩
  | k, m :: ms, s =>
    match appendMessage parseDate (clock k) s m with
    | ⟨s1, none⟩ => forEachAppend parseDate clock (k + 1) ms s1
    | ⟨s1, some e⟩ => ⟨s1, some e⟩

/-! ## Reply draft -/

/-- The function `clearReplyPreview()`. -/
def clearReplyPreview (s : Client) : Client :=
  { s with replyTo := none, replyPreview := none }

/-- The string assigned to `preview.innerHTML` in `setReplyPreview`. -/
def previewContent (user : String) (text : Option String) : Except JsError String := do
  let u ← escapeHtmlOpt (some user)
  let t ← escapeHtmlOpt text
  pure ("Replying to <strong>" ++ u ++ "</strong>: " ++ t ++
    " <button id=\"cancelReply\" style=\"float:right;\">✕</button>")

/-- The function `setReplyPreview(user, text)`: the draft is assigned first, then the preview
element is created or updated. -/
def setReplyPreview (user : String) (text : Option String) (s : Client) : Result :=
  let s := { s with replyTo := some ⟨user, text⟩ }
  match s.replyPreview with
  | none =>
    match previewContent user text with
    | .ok html => ⟨{ s with replyPreview := some html }, none⟩
    | .error e => ⟨s, some e⟩
  | some _ =>
    match previewContent user text with
    | .ok html => ⟨{ s with replyPreview := some html }, none⟩
    | .error e => ⟨s, some e⟩

/-- A click on the `#cancelReply` button, which exists while the preview does. -/
def cancelReplyClick (s : Client) : Client :=
  if s.replyPreview.isSome then clearReplyPreview s else s

/-- Exponent notation of a natural number with `n + 1` digits: its first digit, a point and
the remaining digits up to the last non-zero one (no point when there is none), then `e+`
and `n`.  The digits are those of the integer itself, which are the digits `Number::toString`
prints whenever the integer has at most 15 significant digits (as `10^21` has). -/
def exponentNotation (x : Nat) : String :=
  let digits := Nat.toDigits 10 x
  let significant := (digits.reverse.dropWhile (fun c => decide (c = '0'))).reverse
  let mantissa : List Char :=
    match significant with
    | [] => []
    | [d] => [d]
    | d :: rest => d :: '.' :: rest
  ⟨mantissa⟩ ++ "e+" ++ toString (digits.length - 1)

/-- The conversion `String(x)` of an integer-valued number, as assigning it to a `dataset`
entry performs it: plain decimal digits when `|x| < 10^21`, exponent notation from `10^21`
on (`String(1e21)` is `1e+21`). -/
def numberToString (x : Int) : String :=
  if x.natAbs < 10 ^ 21 then toString x
  else if x < 0 then "-" ++ exponentNotation x.natAbs
  else exponentNotation x.natAbs

/-- The effect of the `dragstart` listener on its `div`: `data-dragging` is set and the
pointer position is stored, as a string, in `dataset.dragStartX`. -/
def markDragStart (div : Element) (clientX : Int) : Element :=
  { div with dataDragging := some "true", dragStartX := some (numberToString clientX) }

/-- The `dragstart` listener of the `i`-th message `div`, at pointer position `clientX`. -/
def dragstart (i : Nat) (clientX : Int) (s : Client) : Client :=
  match s.chatWindow[i]? with
  | some div => { s with chatWindow := s.chatWindow.set i (markDragStart div clientX) }
  | none => s

/-- The `dragend` listener of the `i`-th message `div`, at pointer position `clientX`. -/
def dragend (i : Nat) (clientX : Int) (s : Client) : Result :=
  match s.chatWindow[i]? with
  | some div =>
    let startX := parseInt (if truthyStr div.dragStartX then div.dragStartX.getD "" else "0")
    let endX := clientX
    let diff := startX.map (fun x => endX - x)
    if diff.any (fun d => decide (d > 100)) then setReplyPreview div.user div.text s
    else ⟨s, none⟩
  | none => ⟨s, none⟩

/-! ## Connection and sending -/

/-- The handler `ws.onopen`. -/
def onopen (s : Client) : Client :=
  if truthyStr s.currentUser then
    { s with usernameValue := s.currentUser.getD "", usernameDisabled := true,
             sent := s.sent ++ [.join (s.currentUser.getD "")] }
  else { s with blurListeners := s.blurListeners + 1 }

/-- One `blur` listener of the username field. -/
def blurListener (s : Client) : Client :=
  let user := jsTrim s.usernameValue
  if user != "" then { s with sent := s.sent ++ [.join user] } else s

/-- A `blur` event on the username field: every registered listener runs. -/
def onblur (s : Client) : Client :=
  Nat.iterate blurListener s.blurListeners s

/-- The handler `ws.onmessage` on a parsed event. -/
def onmessage (parseDate : String → Date) (clock : Nat → Date) (s : Client) :
    ServerEvent → Result
  | .error message =>
    ⟨{ s with alerts := s.alerts ++ [message], usernameDisabled := false, usernameValue := "",
              chatUser := none, currentUser := none }, none⟩
  | .joined user =>
    ⟨{ s with currentUser := some user, chatUser := some user, usernameValue := user,
              usernameDisabled := true }, none⟩
  | .init messages => forEachAppend parseDate clock 0 messages s
  | .new msg => appendMessage parseDate (clock 0) s msg
  | .other => ⟨s, none⟩

/-- The send condition in the words of the specification: a non-empty trimmed username and
at least one of a non-empty trimmed text or a selected file. -/
def accepted (s : Client) : Bool :=
  jsTrim s.usernameValue != "" && (jsTrim s.messageValue != "" || s.imageFile.isSome)

/-- The payload built by `sendMessage` (lines 122-131). -/
def buildPayload (nowIso : String) (s : Client) : Payload :=
  let payload : Payload :=
    { user := jsTrim s.usernameValue, text := jsTrim s.messageValue, time := nowIso,
      replyTo := none, image := none }
  match s.replyTo with
  | some r => { payload with replyTo := some r }
  | none => payload

/-- The function `sendMessage()`; `nowIso` is the value of `new Date().toISOString()`. -/
def sendMessage (nowIso : String) (s : Client) : Client :=
  let user := jsTrim s.usernameValue
  let text := jsTrim s.messageValue
  let file := s.imageFile
  if user = "" ∨ (text = "" ∧ file = none) then s
  else
    let payload := buildPayload nowIso s
    let s1 : Client :=
      match file with
      | some f => { s with reading := s.reading ++ [(payload, f)] }
      | none => { s with sent := s.sent ++ [.message payload] }
    clearReplyPreview { s1 with messageValue := "", imageFile := none }

/-- The `onload` callback of the `i`-th file read in flight: the image is added to the payload
and the payload is sent. -/
def readerOnload (i : Nat) (s : Client) : Client :=
  match s.reading[i]? with
  | some (payload, f) =>
    { s with sent := s.sent ++ [.message { payload with image := some f.dataURL }],
             reading := s.reading.eraseIdx i }
  | none => s

/-- The `keypress` listener of the message field. -/
def onkeypress (key : String) (shiftKey : Bool) (nowIso : String) (s : Client) : Client :=
  if key = "Enter" ∧ shiftKey = false then sendMessage nowIso s else s

/-! ## Event sequences -/

/-- One turn of the event loop: a server event, a user action or a completed file read.
Typing and file choice are the browser's own effect on the form fields; a disabled
username field cannot be edited. -/
inductive Step where
  | wsOpen
  | server (event : ServerEvent) (clock : Nat → Date)
  | blur
  | typeUsername (value : String)
  | typeMessage (value : String)
  | chooseFile (file : Option File)
  | clickSend (nowIso : String)
  | keypress (key : String) (shiftKey : Bool) (nowIso : String)
  | dragstart (i : Nat) (clientX : Int)
  | dragend (i : Nat) (clientX : Int)
  | cancelReply
  | fileLoaded (i : Nat)

/-- The state after one turn; an uncaught exception ends the handler and keeps its effects. -/
def step (parseDate : String → Date) (s : Client) : Step → Client
  | .wsOpen => onopen s
  | .server event clock => (onmessage parseDate clock s event).state
  | .blur => onblur s
  | .typeUsername value => if s.usernameDisabled then s else { s with usernameValue := value }
  | .typeMessage value => { s with messageValue := value }
  | .chooseFile file => { s with imageFile := file }
  | .clickSend nowIso => sendMessage nowIso s
  | .keypress key shiftKey nowIso => onkeypress key shiftKey nowIso s
  | .dragstart i clientX => dragstart i clientX s
  | .dragend i clientX => (dragend i clientX s).state
  | .cancelReply => cancelReplyClick s
  | .fileLoaded i => readerOnload i s

/-- The state after a sequence of turns. -/
def run (parseDate : String → Date) (steps : List Step) (s : Client) : Client :=
  steps.foldl (step parseDate) s

/-- Whether the turn is a `joined` or `error` server event. -/
def Step.isIdentityEvent : Step → Bool
  | .server (.joined _) _ => true
  | .server (.error _) _ => true
  | _ => false

/-- A reply gesture: a drag of the `i`-th message from `startX` to `endX`, or a click on the
cancel button. -/
inductive Gesture where
  | drag (i : Nat) (startX endX : Int)
  | cancel
  deriving DecidableEq, Repr

/-- The state after a gesture. -/
def gesture (s : Client) : Gesture → Client
  | .drag i startX endX => (dragend i endX (dragstart i startX s)).state
  | .cancel => cancelReplyClick s

/-- Whether the start coordinate of the gesture is stored in plain decimal digits. -/
def Gesture.plainStart : Gesture → Bool
  | .drag _ startX _ => decide (startX.natAbs < 10 ^ 21)
  | .cancel => true

/-- The state after a sequence of gestures. -/
def gestures (s : Client) (gs : List Gesture) : Client :=
  gs.foldl gesture s

/-- The `{user, text}` pairs the drag handlers of the chat window close over. -/
def snapshots (w : List Element) : List ReplyRef :=
  w.map (fun d => ⟨d.user, d.text⟩)

/-- The snapshot a gesture qualifies for: the dragged message's `{user, text}` when the drag
went more than 100 pixels to the right. -/
def qualifying (w : List Element) : Gesture → Option ReplyRef
  | .drag i startX endX => if endX - startX > 100 then (snapshots w)[i]? else none
  | .cancel => none

/-- The snapshot of the most recent qualifying drag of a gesture sequence. -/
def lastQualifying (w : List Element) (gs : List Gesture) : Option ReplyRef :=
  (gs.reverse.filterMap (qualifying w)).head?

/-- Whether `appendMessage` can render the message: a `replyTo`, when present, has a text. -/
def renderable (m : Message) : Bool :=
  match m.replyTo with
  | some r => r.text.isSome
  | none => true

/-- The element `appendMessage` appends for a message it can render. -/
def renderedDiv (parseDate : String → Date) (now : Date) (currentUser : Option String)
    (m : Message) : Option Element :=
  match messageContent parseDate now m with
  | .ok content => some { newDiv currentUser m with innerHTML := content }
  | .error _ => none

/-! ## Auxiliary predicates -/

/-- Every `&` of the list starts one of the five entities. -/
def AmpStartsEntity (l : List Char) : Prop :=
  ∀ i, (l.drop i).head? = some '&' → ∃ e ∈ entities, e.data <+: l.drop i

/-- Decimal digit characters `0`..`9`. -/
def IsDec (c : Char) : Prop := 48 ≤ c.toNat ∧ c.toNat ≤ 57

/-- Value of a list of decimal digits read left to right from `acc`. -/
def decValue (acc : Nat) (l : List Char) : Nat :=
  l.foldl (fun acc c => acc * 10 + (digitValue c).getD 0) acc

/-- A `Date` constructor that rejects every string; used in concrete evaluations. -/
def invalidDate : String → Date := fun _ => ⟨.nan, .nan⟩

/-- A clock stopped at five past midnight; used in concrete evaluations. -/
def midnightClock : Nat → Date := fun _ => ⟨.nat 0, .nat 5⟩

/-- A state with the reply draft `{user: "bob", text: "hi"}` and the text `hello` typed. -/
def draftState : Client :=
  { initial none with
    usernameValue := "alice", messageValue := "hello", replyTo := some ⟨"bob", some "hi"⟩ }

/-- A state with a blank username and the text `hello` typed. -/
def blankUserState : Client :=
  { initial none with usernameValue := "  ", messageValue := "hello" }

/-- A message whose sender name is markup. -/
def markupUser : Message :=
  ⟨"<img src=x onerror=alert(1)>", some "hi", none, none, none⟩

/-- A message replying to a message without text. -/
def replyWithoutText : Message :=
  ⟨"alice", some "ok", none, none, some ⟨"bob", none⟩⟩

/-- A history of three messages, the second replying to a message without text. -/
def history : List Message :=
  [⟨"alice", some "one", none, none, none⟩, replyWithoutText,
   ⟨"carol", some "three", none, none, none⟩]

/-- A chat window holding one rendered message of `bob`. -/
def oneMessageState : Client :=
  (appendMessage invalidDate (midnightClock 0) (initial none)
    ⟨"bob", some "hi", none, none, none⟩).state

/-- The stored username and the session username of a state. -/
def identity (s : Client) : Option String × Option String :=
  (s.currentUser, s.chatUser)

/-! ## Escaping -/

theorem escape_pointwise (x : Char) :
    ((if x = '&' then "&amp;".data else [x]).flatMap fun x =>
      (if x = '<' then "&lt;".data else [x]).flatMap fun x =>
        (if x = '>' then "&gt;".data else [x]).flatMap fun x =>
          (if x = dquote then "&quot;".data else [x]).flatMap fun x =>
            if x = squote then "&#039;".data else [x]) = (escapeChar x).data := by
  unfold escapeChar
  by_cases h1 : x = '&'
  · subst h1; rfl
  by_cases h2 : x = '<'
  · subst h2; rfl
  by_cases h3 : x = '>'
  · subst h3; rfl
  by_cases h4 : x = dquote
  · subst h4; rfl
  by_cases h5 : x = squote
  · subst h5; rfl
  simp [h1, h2, h3, h4, h5]

theorem escapeHtml_eq_singlePass (s : String) : escapeHtml s = escapeSinglePass s := by
  unfold escapeHtml escapeSinglePass replaceAll
  simp only [List.flatMap_assoc]
  congr 1
  congr 1
  funext x
  exact escape_pointwise x

/-! ## Time format -/

theorem minutes_two_digits (m : Nat) (hm : m < 60) :
    (if (Num.nat m).lt 10 then "0" ++ (Num.nat m).str else (Num.nat m).str) = twoDigits m := by
  interval_cases m <;> rfl

theorem hours_twelve (h : Nat) :
    (if ((Num.nat h).mod 12).truthy then (Num.nat h).mod 12 else .nat 12) = .nat ((h + 11) % 12 + 1) := by
  simp only [Num.mod, Num.truthy]
  by_cases h0 : h % 12 = 0
  · simp [h0]; omega
  · simp [h0]; omega

theorem formatAMPM_eq (h m : Nat) (hh : h < 24) (hm : m < 60) :
    formatAMPM ⟨.nat h, .nat m⟩ =
      toString ((h + 11) % 12 + 1) ++ ":" ++ twoDigits m ++ " " ++ (if h < 12 then "AM" else "PM") := by
  unfold formatAMPM
  simp only [hours_twelve, minutes_two_digits m hm]
  simp only [Num.str, Num.ge]
  by_cases h12 : h < 12
  · have : ¬ (12 ≤ h) := by omega
    simp [h12, this]
  · have : 12 ≤ h := by omega
    simp [h12, this]
/-! ## Escaping: the output -/

theorem ampStartsEntity_append (b r : List Char)
    (hin : ∀ i, 0 < i → i < b.length → (b.drop i).head? ≠ some '&')
    (hhead : b.head? = some '&' → ∃ e ∈ entities, e.data = b)
    (hr : AmpStartsEntity r) : AmpStartsEntity (b ++ r) := by
  intro i h
  by_cases hi : i < b.length
  · have hd : (b ++ r).drop i = b.drop i ++ r := List.drop_append_of_le_length (Nat.le_of_lt hi)
    have hne : b.drop i ≠ [] := by
      intro hnil
      have := List.drop_eq_nil_iff.mp hnil
      omega
    have hh : (b.drop i ++ r).head? = (b.drop i).head? := by
      cases hb : b.drop i with
      | nil => exact absurd hb hne
      | cons x xs => rfl
    rw [hd, hh] at h
    rcases Nat.eq_zero_or_pos i with h0 | hpos
    · subst h0
      obtain ⟨e, he, hb⟩ := hhead (by simpa using h)
      exact ⟨e, he, by simp [hb]⟩
    · exact absurd h (hin i hpos hi)
  · have hle : b.length ≤ i := Nat.le_of_not_lt hi
    have hd : (b ++ r).drop i = r.drop (i - b.length) := by
      rw [List.drop_append_eq_append_drop]
      simp [List.drop_eq_nil_iff.mpr hle]
    rw [hd] at h ⊢
    exact hr _ h

theorem escapeChar_block (c : Char) :
    (∀ i, 0 < i → i < (escapeChar c).data.length → ((escapeChar c).data.drop i).head? ≠ some '&') ∧
    ((escapeChar c).data.head? = some '&' → ∃ e ∈ entities, e.data = (escapeChar c).data) ∧
    (∀ x ∈ (escapeChar c).data, x ≠ '<' ∧ x ≠ '>' ∧ x ≠ dquote ∧ x ≠ squote) := by
  unfold escapeChar
  by_cases h1 : c = '&'
  · subst h1; refine ⟨?_, ?_, ?_⟩
    · intro i h0 hi; simp at hi; interval_cases i <;> decide
    · intro _; exact ⟨"&amp;", by decide, rfl⟩
    · decide
  by_cases h2 : c = '<'
  · subst h2; refine ⟨?_, ?_, ?_⟩
    · intro i h0 hi; simp at hi; interval_cases i <;> decide
    · intro _; exact ⟨"&lt;", by decide, rfl⟩
    · decide
  by_cases h3 : c = '>'
  · subst h3; refine ⟨?_, ?_, ?_⟩
    · intro i h0 hi; simp at hi; interval_cases i <;> decide
    · intro _; exact ⟨"&gt;", by decide, rfl⟩
    · decide
  by_cases h4 : c = dquote
  · subst h4; refine ⟨?_, ?_, ?_⟩
    · intro i h0 hi; change i < 6 at hi; interval_cases i <;> decide
    · intro _; exact ⟨"&quot;", by decide, rfl⟩
    · decide
  by_cases h5 : c = squote
  · subst h5; refine ⟨?_, ?_, ?_⟩
    · intro i h0 hi; change i < 6 at hi; interval_cases i <;> decide
    · intro _; exact ⟨"&#039;", by decide, rfl⟩
    · decide
  simp only [h1, h2, h3, h4, h5, if_false]
  refine ⟨?_, ?_, ?_⟩
  · intro i h0 hi; simp at hi; omega
  · intro h; simp at h; exact absurd h h1
  · intro x hx; simp at hx; subst hx; exact ⟨h2, h3, h4, h5⟩

theorem singlePass_ampStartsEntity (l : List Char) :
    AmpStartsEntity (l.flatMap (fun c => (escapeChar c).data)) := by
  induction l with
  | nil => intro i h; simp at h
  | cons c t ih =>
    rw [List.flatMap_cons]
    exact ampStartsEntity_append _ _ (escapeChar_block c).1 (escapeChar_block c).2.1 ih

theorem singlePass_safe (l : List Char) :
    ∀ x ∈ l.flatMap (fun c => (escapeChar c).data),
      x ≠ '<' ∧ x ≠ '>' ∧ x ≠ dquote ∧ x ≠ squote := by
  intro x hx
  rw [List.mem_flatMap] at hx
  obtain ⟨c, _, hc⟩ := hx
  exact (escapeChar_block c).2.2 x hc

/-- C2. `escapeHtml` (five chained global replaces, `&` first) equals the single-pass
character-wise substitution; its output contains none of `<`, `>`, `"`, `'`, and every `&`
in it begins one of the five entities. -/
theorem escapeHtml_contract (s : String) :
    escapeHtml s = escapeSinglePass s ∧
    (∀ x ∈ (escapeHtml s).data, x ≠ '<' ∧ x ≠ '>' ∧ x ≠ dquote ∧ x ≠ squote) ∧
    (∀ i, ((escapeHtml s).data.drop i).head? = some '&' →
      ∃ e ∈ entities, e.data <+: (escapeHtml s).data.drop i) := by
  rw [escapeHtml_eq_singlePass]
  exact ⟨rfl, singlePass_safe s.data, singlePass_ampStartsEntity s.data⟩

/-- Instance of C2: a lone ampersand becomes its entity, which starts the output. -/
theorem escapeHtml_contract_witness :
    escapeHtml "&" = "&amp;" ∧
    ∃ e ∈ entities, e.data <+: (escapeHtml "&").data.drop 0 :=
  ⟨(escapeHtml_contract "&").1.trans (by decide), (escapeHtml_contract "&").2.2 0 (by decide)⟩

/-! ## Decimal strings and `parseInt` -/

theorem digitChar_dec (k : Nat) (hk : k < 10) :
    IsDec (Nat.digitChar k) ∧ digitValue (Nat.digitChar k) = some k := by
  interval_cases k <;> exact ⟨by unfold IsDec; decide, by decide⟩

theorem isDec_facts (c : Char) (h : IsDec c) :
    isJsWhitespace c = false ∧ c ≠ '-' ∧ c ≠ '+' ∧ c ≠ 'x' ∧ c ≠ 'X' ∧
    isRadixDigit 10 c = true := by
  obtain ⟨h1, h2⟩ := h
  refine ⟨?_, ?_, ?_, ?_, ?_, ?_⟩
  · simp only [isJsWhitespace, Bool.or_eq_false_iff, decide_eq_false_iff_not, Bool.and_eq_false_iff]
    omega
  · rintro rfl; revert h1; decide
  · rintro rfl; revert h1; decide
  · rintro rfl; revert h2; decide
  · rintro rfl; revert h2; decide
  · have hd : digitValue c = some (c.toNat - 48) := by
      unfold digitValue
      rw [if_pos]
      exact ⟨h1, h2⟩
    simp only [isRadixDigit, hd, decide_eq_true_eq]
    omega

theorem toDigitsCore_dec (fuel : Nat) : ∀ (n : Nat) (ds : List Char),
    (∀ c ∈ ds, IsDec c) → ∀ c ∈ Nat.toDigitsCore 10 fuel n ds, IsDec c := by
  induction fuel with
  | zero => intro n ds h; simpa [Nat.toDigitsCore] using h
  | succ f ih =>
    intro n ds h
    have hd : ∀ c ∈ Nat.digitChar (n % 10) :: ds, IsDec c := by
      intro c hc
      rcases List.mem_cons.mp hc with rfl | hc
      · exact (digitChar_dec _ (Nat.mod_lt _ (by decide))).1
      · exact h c hc
    simp only [Nat.toDigitsCore]
    split
    · exact hd
    · exact ih _ _ hd

theorem toDigitsCore_ne_nil (fuel : Nat) : ∀ (n : Nat) (ds : List Char),
    ds ≠ [] → Nat.toDigitsCore 10 fuel n ds ≠ [] := by
  induction fuel with
  | zero => intro n ds h; simpa [Nat.toDigitsCore] using h
  | succ f ih =>
    intro n ds _
    simp only [Nat.toDigitsCore]
    split
    · simp
    · exact ih _ _ (by simp)

theorem toDigitsCore_value (fuel : Nat) : ∀ (n : Nat) (ds : List Char), n < fuel →
    decValue 0 (Nat.toDigitsCore 10 fuel n ds) = decValue n ds := by
  induction fuel with
  | zero => intro n ds h; omega
  | succ f ih =>
    intro n ds h
    have hv := (digitChar_dec (n % 10) (Nat.mod_lt _ (by decide))).2
    simp only [Nat.toDigitsCore]
    split
    · rename_i h0
      simp only [decValue, List.foldl_cons, hv, Option.getD_some]
      have : n % 10 = n := by omega
      simp [this]
    · rename_i h0
      rw [ih _ _ (by omega)]
      simp only [decValue, List.foldl_cons, hv, Option.getD_some]
      have : n / 10 * 10 + n % 10 = n := by omega
      rw [this]

theorem toDigits_facts (n : Nat) :
    Nat.toDigits 10 n ≠ [] ∧ (∀ c ∈ Nat.toDigits 10 n, IsDec c) ∧
    decValue 0 (Nat.toDigits 10 n) = n := by
  refine ⟨?_, ?_, ?_⟩
  · unfold Nat.toDigits
    simp only [Nat.toDigitsCore]
    split
    · simp
    · exact toDigitsCore_ne_nil _ _ _ (by simp)
  · exact toDigitsCore_dec _ _ _ (by simp)
  · have := toDigitsCore_value (n + 1) n [] (by omega)
    simpa [Nat.toDigits, decValue] using this

theorem parseInt_digits (l : List Char) (hne : l ≠ []) (hall : ∀ c ∈ l, IsDec c) :
    parseInt ⟨l⟩ = some (decValue 0 l : Int) ∧
    parseInt ⟨'-' :: l⟩ = some (-(decValue 0 l : Int)) := by
  obtain ⟨c, t, rfl⟩ := List.exists_cons_of_ne_nil hne
  have hc := isDec_facts c (hall c (by simp))
  have htake : (c :: t).takeWhile (isRadixDigit 10) = c :: t :=
    List.takeWhile_eq_self_iff.mpr (fun x hx => (isDec_facts x (hall x hx)).2.2.2.2.2)
  have hhex : ¬ ((c :: t).take 2 = ['0', 'x'] ∨ (c :: t).take 2 = ['0', 'X']) := by
    cases t with
    | nil => simp
    | cons d t2 =>
      have hd := isDec_facts d (hall d (by simp))
      simp [hd.2.2.2.1, hd.2.2.2.2.1]
  constructor
  · simp only [parseInt, List.dropWhile_cons, hc.1, Bool.false_eq_true, if_false, List.head?_cons,
      Option.some.injEq, hc.2.1, hc.2.2.1, or_self, decide_False, hhex, htake]
    simp [decValue]
  · have hm : isJsWhitespace '-' = false := by decide
    simp only [parseInt, List.dropWhile_cons, hm, Bool.false_eq_true, if_false, List.head?_cons,
      true_or, if_true, List.tail_cons, decide_True, hhex, decide_False, htake]
    simp [decValue]

theorem parseInt_toString (x : Int) : parseInt (toString x) = some x := by
  cases x with
  | ofNat n =>
    obtain ⟨h1, h2, h3⟩ := toDigits_facts n
    have := (parseInt_digits _ h1 h2).1
    rw [h3] at this
    exact this
  | negSucc m =>
    obtain ⟨h1, h2, h3⟩ := toDigits_facts (m + 1)
    have := (parseInt_digits _ h1 h2).2
    rw [h3] at this
    exact this

/-! ## Time format: the contract -/

/-- C3. For an hour `h` in 0..23 and a minute `m` in 0..59, `formatAMPM` returns the hour
`((h + 11) mod 12) + 1` (between 1 and 12) in decimal, a colon, the minute with exactly two
digits, a space, and `AM` when `h < 12`, `PM` otherwise; (0, 5) gives `12:05 AM` and (13, 0)
gives `1:00 PM`. -/
theorem formatAMPM_contract (h m : Nat) (hh : h < 24) (hm : m < 60) :
    formatAMPM ⟨.nat h, .nat m⟩ =
      toString ((h + 11) % 12 + 1) ++ ":" ++ twoDigits m ++ " " ++
        (if h < 12 then "AM" else "PM") ∧
    1 ≤ (h + 11) % 12 + 1 ∧ (h + 11) % 12 + 1 ≤ 12 ∧
    (twoDigits m).length = 2 ∧
    formatAMPM ⟨.nat 0, .nat 5⟩ = "12:05 AM" ∧
    formatAMPM ⟨.nat 13, .nat 0⟩ = "1:00 PM" := by
  refine ⟨formatAMPM_eq h m hh hm, by omega, by omega, rfl, by decide, by decide⟩

/-- Instance of C3 at 23:59. -/
theorem formatAMPM_contract_witness :
    formatAMPM ⟨.nat 23, .nat 59⟩ = "11:59 PM" :=
  (formatAMPM_contract 23 59 (by decide) (by decide)).1.trans (by decide)

/-! ## Join rejection -/

/-- C7. On a server event of type `error`, whatever the state and the message, the username
field ends enabled and empty, the stored `chatUser` key is absent, `currentUser` is null, and
nothing is rendered, sent or scheduled. -/
theorem onmessage_error_resets (parseDate : String → Date) (clock : Nat → Date) (s : Client)
    (message : String) :
    (onmessage parseDate clock s (.error message)).state.usernameDisabled = false ∧
    (onmessage parseDate clock s (.error message)).state.usernameValue = "" ∧
    (onmessage parseDate clock s (.error message)).state.chatUser = none ∧
    (onmessage parseDate clock s (.error message)).state.currentUser = none ∧
    (onmessage parseDate clock s (.error message)).state.chatWindow = s.chatWindow ∧
    (onmessage parseDate clock s (.error message)).state.sent = s.sent ∧
    (onmessage parseDate clock s (.error message)).state.reading = s.reading ∧
    (onmessage parseDate clock s (.error message)).state.alerts = s.alerts ++ [message] ∧
    (onmessage parseDate clock s (.error message)).error = none :=
  ⟨rfl, rfl, rfl, rfl, rfl, rfl, rfl, rfl, rfl⟩

/-! ## Sending -/

theorem accepted_iff (s : Client) :
    accepted s = true ↔
      ¬ (jsTrim s.usernameValue = "" ∨ (jsTrim s.messageValue = "" ∧ s.imageFile = none)) := by
  unfold accepted
  cases hf : s.imageFile <;> simp [not_or]

theorem sendMessage_rejected (nowIso : String) (s : Client) (h : accepted s = false) :
    sendMessage nowIso s = s := by
  have hg : jsTrim s.usernameValue = "" ∨ (jsTrim s.messageValue = "" ∧ s.imageFile = none) := by
    by_contra hc
    rw [(accepted_iff s).mpr hc] at h
    exact Bool.noConfusion h
  simp only [sendMessage, if_pos hg]

theorem sendMessage_text (nowIso : String) (s : Client) (h : accepted s = true)
    (hf : s.imageFile = none) :
    sendMessage nowIso s =
      { s with sent := s.sent ++ [.message (buildPayload nowIso s)], messageValue := "",
               imageFile := none, replyTo := none, replyPreview := none } := by
  have hg := (accepted_iff s).mp h
  simp only [sendMessage]
  rw [if_neg hg]
  simp only [hf, clearReplyPreview]

theorem sendMessage_file (nowIso : String) (s : Client) (h : accepted s = true) (f : File)
    (hf : s.imageFile = some f) :
    sendMessage nowIso s =
      { s with reading := s.reading ++ [(buildPayload nowIso s, f)], messageValue := "",
               imageFile := none, replyTo := none, replyPreview := none } := by
  have hg := (accepted_iff s).mp h
  simp only [sendMessage]
  rw [if_neg hg]
  simp only [hf, clearReplyPreview]

theorem buildPayload_replyTo (nowIso : String) (s : Client) :
    (buildPayload nowIso s).replyTo = s.replyTo := by
  unfold buildPayload
  cases s.replyTo <;> rfl

/-- C6. `sendMessage` transmits a message or schedules its transmission exactly when the
trimmed username is non-empty and the trimmed text is non-empty or a file is selected; when
the condition fails, the whole state (text field, file selector and reply draft included) is
left unchanged. -/
theorem sendMessage_guard (nowIso : String) (s : Client) :
    (((sendMessage nowIso s).sent ≠ s.sent ∨ (sendMessage nowIso s).reading ≠ s.reading) ↔
      accepted s = true) ∧
    (accepted s = false → sendMessage nowIso s = s) := by
  refine ⟨⟨?_, ?_⟩, sendMessage_rejected nowIso s⟩
  · intro h
    by_contra hc
    have hr := sendMessage_rejected nowIso s (by simpa using hc)
    rw [hr] at h
    rcases h with h | h <;> exact h rfl
  · intro h
    cases hf : s.imageFile with
    | none =>
      left
      rw [sendMessage_text nowIso s h hf]
      intro he
      have := congrArg List.length he
      simp at this
    | some f =>
      right
      rw [sendMessage_file nowIso s h f hf]
      intro he
      have := congrArg List.length he
      simp at this

/-- Instance of C6: a blank username with a typed text sends nothing and changes nothing. -/
theorem sendMessage_guard_witness : sendMessage "T" blankUserState = blankUserState :=
  (sendMessage_guard "T" blankUserState).2 (by decide)

/-- C5. An accepted send clears the reply draft, and the payload it transmits carries the
draft that was active as its `replyTo` (none when no draft was active): at once for a
text-only send, and when the file read completes for an image send. -/
theorem sendMessage_attaches_draft (nowIso : String) (s : Client) (h : accepted s = true) :
    (sendMessage nowIso s).replyTo = none ∧
    (buildPayload nowIso s).replyTo = s.replyTo ∧
    (s.imageFile = none →
      (sendMessage nowIso s).sent = s.sent ++ [.message (buildPayload nowIso s)] ∧
      (sendMessage nowIso s).reading = s.reading) ∧
    (∀ f, s.imageFile = some f →
      (sendMessage nowIso s).sent = s.sent ∧
      (sendMessage nowIso s).reading = s.reading ++ [(buildPayload nowIso s, f)] ∧
      (readerOnload s.reading.length (sendMessage nowIso s)).sent =
        s.sent ++ [.message { buildPayload nowIso s with image := some f.dataURL }] ∧
      ({ buildPayload nowIso s with image := some f.dataURL } : Payload).replyTo =
        s.replyTo) := by
  refine ⟨?_, buildPayload_replyTo nowIso s, ?_, ?_⟩
  · cases hf : s.imageFile with
    | none => rw [sendMessage_text nowIso s h hf]
    | some f => rw [sendMessage_file nowIso s h f hf]
  · intro hf
    rw [sendMessage_text nowIso s h hf]
    exact ⟨rfl, rfl⟩
  · intro f hf
    rw [sendMessage_file nowIso s h f hf]
    refine ⟨rfl, rfl, ?_, buildPayload_replyTo nowIso s⟩
    simp [readerOnload]

/-- Instance of C5: sending `hello` with the draft `{user: "bob", text: "hi"}` transmits a
payload with that `replyTo` and clears the draft. -/
theorem sendMessage_attaches_draft_witness :
    (sendMessage "T" draftState).replyTo = none ∧
    (sendMessage "T" draftState).sent =
      [.message ⟨"alice", "hello", "T", some ⟨"bob", some "hi"⟩, none⟩] :=
  ⟨(sendMessage_attaches_draft "T" draftState (by decide)).1,
   ((sendMessage_attaches_draft "T" draftState (by decide)).2.2.1 (by decide)).1.trans
     (by decide)⟩

/-! ## Rendering -/

theorem safeText_ok (text : Option String) :
    ∃ t, (if truthyStr text = true then escapeHtmlOpt text else pure "") = Except.ok t := by
  cases text with
  | none => exact ⟨_, rfl⟩
  | some t =>
    by_cases hb : truthyStr (some t) = true
    · exact ⟨_, by rw [if_pos hb]; rfl⟩
    · exact ⟨_, by rw [if_neg hb]; rfl⟩

theorem messageContent_renderable (parseDate : String → Date) (now : Date) (m : Message)
    (h : renderable m = true) : ∃ c, messageContent parseDate now m = .ok c := by
  obtain ⟨user, text, image, time, replyTo⟩ := m
  obtain ⟨st, hst⟩ := safeText_ok text
  cases replyTo with
  | none =>
    simp only [messageContent, hst]
    exact ⟨_, rfl⟩
  | some r =>
    obtain ⟨ru, rt⟩ := r
    cases rt with
    | none => simp [renderable] at h
    | some rtext =>
      simp only [messageContent, hst]
      exact ⟨_, rfl⟩

theorem appendMessage_renderable (parseDate : String → Date) (now : Date) (s : Client)
    (m : Message) (h : renderable m = true) :
    ∃ d, renderedDiv parseDate now s.currentUser m = some d ∧
      appendMessage parseDate now s m = ⟨{ s with chatWindow := s.chatWindow ++ [d] }, none⟩ := by
  obtain ⟨c, hc⟩ := messageContent_renderable parseDate now m h
  refine ⟨{ newDiv s.currentUser m with innerHTML := c }, ?_, ?_⟩
  · simp only [renderedDiv, hc]
  · simp only [appendMessage, hc]

/-- On a history whose messages can all be rendered, the `init` loop completes and appends one
element per message, in order, after the existing ones. -/
theorem forEachAppend_renderable (parseDate : String → Date) (clock : Nat → Date)
    (ms : List Message) : ∀ (k : Nat) (s : Client), (∀ m ∈ ms, renderable m = true) →
    (forEachAppend parseDate clock k ms s).error = none ∧
    (forEachAppend parseDate clock k ms s).state.chatWindow =
      s.chatWindow ++ (ms.enumFrom k).filterMap
        (fun p => renderedDiv parseDate (clock p.1) s.currentUser p.2) ∧
    (forEachAppend parseDate clock k ms s).state.chatWindow.length =
      s.chatWindow.length + ms.length := by
  induction ms with
  | nil => intro k s _; simp [forEachAppend]
  | cons m ms ih =>
    intro k s h
    obtain ⟨d, hd, ha⟩ := appendMessage_renderable parseDate (clock k) s m (h m (by simp))
    obtain ⟨h1, h2, h3⟩ := ih (k + 1) { s with chatWindow := s.chatWindow ++ [d] }
      (fun x hx => h x (by simp [hx]))
    simp only [forEachAppend, ha]
    refine ⟨h1, ?_, ?_⟩
    · rw [h2]; simp [List.enumFrom, hd]
    · rw [h3]; simp; omega

/-- Whatever the sender name, a message without text, image, time and reply is rendered with
the name inserted as it is between the `strong` tags. -/
theorem messageContent_user_raw (parseDate : String → Date) (now : Date) (user : String) :
    messageContent parseDate now ⟨user, none, none, none, none⟩ =
      .ok ("" ++ "<strong>" ++ user ++ "</strong>: " ++ "" ++ "<div class=\"timestamp\">" ++
        formatAMPM now ++ "</div>") :=
  rfl

/-- C1 (evaluation at the failing input). A sender name that is markup reaches `innerHTML`
unescaped: `appendMessage` inserts `user` as it is, while `escapeHtml` would have turned its
angle brackets into entities. -/
theorem appendMessage_user_unescaped :
    (appendMessage invalidDate (midnightClock 0) (initial none) markupUser).state.chatWindow.map
        (fun d => d.innerHTML) =
      ["<strong><img src=x onerror=alert(1)></strong>: hi<div class=\"timestamp\">12:05 AM</div>"] ∧
    escapeHtml markupUser.user = "&lt;img src=x onerror=alert(1)&gt;" := by
  decide

/-- C10 (evaluation at the failing input). On a message whose `replyTo` has no text,
`appendMessage` throws a `TypeError` and appends nothing; `setReplyPreview` on a missing text
throws after assigning the draft and shows no preview. -/
theorem render_throws_on_missing_reply_text :
    appendMessage invalidDate (midnightClock 0) (initial none) replyWithoutText =
      ⟨initial none, some .typeError⟩ ∧
    (setReplyPreview "bob" none (initial none)).error = some .typeError ∧
    (setReplyPreview "bob" none (initial none)).state.replyPreview = none ∧
    (setReplyPreview "bob" none (initial none)).state.replyTo = some ⟨"bob", none⟩ := by
  decide

/-- C4 (evaluation at the failing input). An `init` event with three messages, the second
replying to a message without text, stops with a `TypeError` after one appended element. -/
theorem init_stops_at_missing_reply_text :
    history.length = 3 ∧
    (onmessage invalidDate midnightClock (initial none) (.init history)).error =
      some .typeError ∧
    (onmessage invalidDate midnightClock (initial none) (.init history)).state.chatWindow.length
      = 1 := by
  decide

/-! ## Session username -/

theorem appendMessage_identity (parseDate : String → Date) (now : Date) (s : Client)
    (m : Message) : identity (appendMessage parseDate now s m).state = identity s := by
  unfold appendMessage
  cases messageContent parseDate now m <;> rfl

theorem forEachAppend_identity (parseDate : String → Date) (clock : Nat → Date)
    (ms : List Message) : ∀ (k : Nat) (s : Client),
    identity (forEachAppend parseDate clock k ms s).state = identity s := by
  induction ms with
  | nil => intro k s; rfl
  | cons m ms ih =>
    intro k s
    have ha := appendMessage_identity parseDate (clock k) s m
    simp only [forEachAppend]
    cases hr : appendMessage parseDate (clock k) s m with
    | mk s1 e =>
      rw [hr] at ha
      cases e with
      | none => simp only [ih, ha]
      | some e => exact ha

theorem setReplyPreview_identity (user : String) (text : Option String) (s : Client) :
    identity (setReplyPreview user text s).state = identity s := by
  unfold setReplyPreview
  cases s.replyPreview <;> cases previewContent user text <;> rfl

theorem ite_setReplyPreview_identity (c : Prop) [Decidable c] (user : String)
    (text : Option String) (s : Client) :
    identity (if c then setReplyPreview user text s else ⟨s, none⟩).state = identity s := by
  split
  · exact setReplyPreview_identity _ _ _
  · rfl

theorem dragend_identity (i : Nat) (clientX : Int) (s : Client) :
    identity (dragend i clientX s).state = identity s := by
  unfold dragend
  cases s.chatWindow[i]? with
  | none => rfl
  | some div =>
    exact ite_setReplyPreview_identity _ _ _ _

theorem dragstart_identity (i : Nat) (clientX : Int) (s : Client) :
    identity (dragstart i clientX s) = identity s := by
  unfold dragstart
  cases s.chatWindow[i]? <;> rfl

theorem sendMessage_identity (nowIso : String) (s : Client) :
    identity (sendMessage nowIso s) = identity s := by
  cases h : accepted s with
  | false => rw [sendMessage_rejected nowIso s h]
  | true =>
    cases hf : s.imageFile with
    | none => rw [sendMessage_text nowIso s h hf]; rfl
    | some f => rw [sendMessage_file nowIso s h f hf]; rfl

theorem readerOnload_identity (i : Nat) (s : Client) :
    identity (readerOnload i s) = identity s := by
  unfold readerOnload
  cases s.reading[i]? <;> rfl

theorem blurListener_identity (s : Client) : identity (blurListener s) = identity s := by
  unfold blurListener
  simp only
  split <;> rfl

theorem iterate_blurListener_identity (n : Nat) : ∀ s : Client,
    identity (Nat.iterate blurListener n s) = identity s := by
  induction n with
  | zero => intro s; rfl
  | succ n ih => intro s; rw [Function.iterate_succ_apply, ih, blurListener_identity]

theorem step_identity (parseDate : String → Date) (s : Client) (st : Step)
    (h : st.isIdentityEvent = false) : identity (step parseDate s st) = identity s := by
  cases st with
  | wsOpen => simp only [step, onopen]; split <;> rfl
  | server event clock =>
    cases event with
    | error message => simp [Step.isIdentityEvent] at h
    | joined user => simp [Step.isIdentityEvent] at h
    | init messages => exact forEachAppend_identity _ _ _ _ _
    | new msg => exact appendMessage_identity _ _ _ _
    | other => rfl
  | blur => exact iterate_blurListener_identity _ _
  | typeUsername value => simp only [step]; split <;> rfl
  | typeMessage value => rfl
  | chooseFile file => rfl
  | clickSend nowIso => exact sendMessage_identity _ _
  | keypress key shiftKey nowIso =>
    simp only [step, onkeypress]
    split
    · exact sendMessage_identity _ _
    · rfl
  | dragstart i clientX => exact dragstart_identity _ _ _
  | dragend i clientX => exact dragend_identity _ _ _
  | cancelReply => simp only [step, cancelReplyClick]; split <;> rfl
  | fileLoaded i => exact readerOnload_identity _ _

theorem run_identity (parseDate : String → Date) (steps : List Step) : ∀ s : Client,
    (∀ st ∈ steps, st.isIdentityEvent = false) →
    identity (run parseDate steps s) = identity s := by
  induction steps with
  | nil => intro s _; rfl
  | cons st steps ih =>
    intro s h
    have h1 := step_identity parseDate s st (h st (by simp))
    have h2 := ih (step parseDate s st) (fun x hx => h x (by simp [hx]))
    simp only [run, List.foldl_cons] at h2 ⊢
    rw [h2, h1]

/-- C8 (counterexample). After `joined` for `alice`, a later `error` event clears the session
username and the stored key, and a later `joined` for `bob` replaces both. -/
theorem username_changes_after_joined :
    (run invalidDate [.server (.error "name taken") midnightClock]
      (onmessage invalidDate midnightClock (initial none) (.joined "alice")).state).currentUser
      = none ∧
    (run invalidDate [.server (.error "name taken") midnightClock]
      (onmessage invalidDate midnightClock (initial none) (.joined "alice")).state).chatUser
      = none ∧
    (run invalidDate [.server (.joined "bob") midnightClock]
      (onmessage invalidDate midnightClock (initial none) (.joined "alice")).state).currentUser
      = some "bob" ∧
    (run invalidDate [.server (.joined "bob") midnightClock]
      (onmessage invalidDate midnightClock (initial none) (.joined "alice")).state).chatUser
      = some "bob" := by
  decide

/-- C8 (amended). Once a `joined` event for `user` has been handled, `currentUser` and the
stored `chatUser` key both hold `user`, and they stay so under any sequence of later turns
that contains no `joined` and no `error` server event (`init`, `new` and unrecognised events,
typing, blur, file choice, send, drag, cancel, file-read completion); a later `joined` event
sets both to its user and a later `error` event clears both. -/
theorem username_stable_until_identity_event (parseDate : String → Date) (clock : Nat → Date)
    (s : Client) (user : String) (steps : List Step)
    (h : ∀ st ∈ steps, st.isIdentityEvent = false) :
    (run parseDate steps (onmessage parseDate clock s (.joined user)).state).currentUser =
      some user ∧
    (run parseDate steps (onmessage parseDate clock s (.joined user)).state).chatUser =
      some user ∧
    (∀ (t : Client) (other : String),
      (onmessage parseDate clock t (.joined other)).state.currentUser = some other ∧
      (onmessage parseDate clock t (.joined other)).state.chatUser = some other) ∧
    (∀ (t : Client) (message : String),
      (onmessage parseDate clock t (.error message)).state.currentUser = none ∧
      (onmessage parseDate clock t (.error message)).state.chatUser = none) := by
  have hr := run_identity parseDate steps (onmessage parseDate clock s (.joined user)).state h
  have h1 := congrArg Prod.fst hr
  have h2 := congrArg Prod.snd hr
  exact ⟨h1, h2, fun _ _ => ⟨rfl, rfl⟩, fun _ _ => ⟨rfl, rfl⟩⟩

/-- Instance of C8 (amended): after `joined` for `alice`, a history, a send and a drag leave
the session username and the stored key at `alice`. -/
theorem username_stable_until_identity_event_witness :
    (run invalidDate
      [.server (.init history) midnightClock, .typeMessage "hello", .clickSend "T",
       .dragstart 0 10, .dragend 0 200]
      (onmessage invalidDate midnightClock (initial none) (.joined "alice")).state).currentUser =
      some "alice" :=
  (username_stable_until_identity_event invalidDate midnightClock (initial none) "alice"
    [.server (.init history) midnightClock, .typeMessage "hello", .clickSend "T",
     .dragstart 0 10, .dragend 0 200] (by decide)).1

/-! ## Reply gesture -/

theorem toString_int_truthy (a : Int) : truthyStr (some (toString a)) = true := by
  have h : toString a ≠ "" := by
    intro he
    have hp := parseInt_toString a
    rw [he] at hp
    have hn : parseInt "" = none := by decide
    rw [hn] at hp
    cases hp
  simpa [truthyStr] using h

theorem numberToString_plain (a : Int) (ha : a.natAbs < 10 ^ 21) :
    numberToString a = toString a := by
  unfold numberToString
  rw [if_pos ha]

theorem setReplyPreview_fields (user : String) (text : Option String) (s : Client) :
    (setReplyPreview user text s).state.replyTo = some ⟨user, text⟩ ∧
    (setReplyPreview user text s).state.chatWindow = s.chatWindow := by
  unfold setReplyPreview
  cases s.replyPreview <;> cases previewContent user text <;> exact ⟨rfl, rfl⟩

theorem dragstart_at (i : Nat) (a : Int) (s : Client) (div : Element)
    (h : s.chatWindow[i]? = some div) :
    dragstart i a s = { s with chatWindow := s.chatWindow.set i (markDragStart div a) } := by
  simp only [dragstart, h]

theorem snapshots_set (w : List Element) (i : Nat) (div : Element) (a : Int)
    (h : w[i]? = some div) : snapshots (w.set i (markDragStart div a)) = snapshots w := by
  obtain ⟨hi, he⟩ := List.getElem?_eq_some_iff.mp h
  unfold snapshots
  apply List.ext_getElem?
  intro n
  by_cases hn : n = i
  · subst hn; simp [hi, ← he, markDragStart]
  · simp [List.getElem?_set, Ne.symm hn]

theorem ite_setReplyPreview_chatWindow (c : Prop) [Decidable c] (user : String)
    (text : Option String) (s : Client) :
    (if c then setReplyPreview user text s else ⟨s, none⟩).state.chatWindow = s.chatWindow := by
  split
  · exact (setReplyPreview_fields _ _ _).2
  · rfl

theorem dragend_chatWindow (i : Nat) (b : Int) (s : Client) :
    (dragend i b s).state.chatWindow = s.chatWindow := by
  unfold dragend
  cases s.chatWindow[i]? with
  | none => rfl
  | some div => exact ite_setReplyPreview_chatWindow _ _ _ _

theorem dragend_marked (s : Client) (i : Nat) (div : Element) (a b : Int)
    (ha : a.natAbs < 10 ^ 21) (h : s.chatWindow[i]? = some (markDragStart div a)) :
    dragend i b s =
      if b - a > 100 then setReplyPreview div.user div.text s else ⟨s, none⟩ := by
  have hx : (markDragStart div a).dragStartX = some (toString a) := by
    simp only [markDragStart, numberToString_plain a ha]
  have ht : truthyStr (markDragStart div a).dragStartX = true := by
    rw [hx]; exact toString_int_truthy a
  have hp : parseInt ((markDragStart div a).dragStartX.getD "") = some a := by
    rw [hx]; exact parseInt_toString a
  simp only [dragend, h, ht, if_true, hp, Option.map_some', Option.any_some, decide_eq_true_eq]
  rfl

theorem gesture_drag_at (s : Client) (i : Nat) (div : Element) (a b : Int)
    (ha : a.natAbs < 10 ^ 21) (h : s.chatWindow[i]? = some div) :
    (gesture s (.drag i a b)).replyTo =
      (if b - a > 100 then some ⟨div.user, div.text⟩ else s.replyTo) := by
  obtain ⟨hi, _⟩ := List.getElem?_eq_some_iff.mp h
  have hget : (s.chatWindow.set i (markDragStart div a))[i]? = some (markDragStart div a) := by
    simp [hi]
  simp only [gesture, dragstart_at i a s div h]
  rw [dragend_marked _ i div a b ha hget]
  by_cases hd : b - a > 100
  · rw [if_pos hd, if_pos hd]
    exact (setReplyPreview_fields div.user div.text _).1
  · rw [if_neg hd, if_neg hd]

theorem gesture_drag_none (s : Client) (i : Nat) (a b : Int) (h : s.chatWindow[i]? = none) :
    gesture s (.drag i a b) = s := by
  simp only [gesture, dragstart, dragend, h]

theorem gesture_snapshots (s : Client) (g : Gesture) :
    snapshots (gesture s g).chatWindow = snapshots s.chatWindow := by
  cases g with
  | cancel => simp only [gesture, cancelReplyClick]; split <;> rfl
  | drag i a b =>
    cases h : s.chatWindow[i]? with
    | none => rw [gesture_drag_none s i a b h]
    | some div =>
      simp only [gesture, dragend_chatWindow, dragstart_at i a s div h]
      exact snapshots_set s.chatWindow i div a h

theorem snapshots_getElem? (w : List Element) (i : Nat) :
    (snapshots w)[i]? = (w[i]?).map (fun d => ⟨d.user, d.text⟩) := by
  simp [snapshots]

theorem gesture_effect (s : Client) (g : Gesture) (hg : g.plainStart = true) :
    ((gesture s g).replyTo = none ∨
      (gesture s g).replyTo =
        match qualifying s.chatWindow g with
        | some d => some d
        | none => s.replyTo) ∧
    (∀ d, qualifying s.chatWindow g = some d → (gesture s g).replyTo = some d) := by
  cases g with
  | cancel =>
    simp only [gesture, cancelReplyClick, qualifying]
    split
    · exact ⟨Or.inl rfl, (fun d hd => by cases hd)⟩
    · exact ⟨Or.inr rfl, (fun d hd => by cases hd)⟩
  | drag i a b =>
    have ha : a.natAbs < 10 ^ 21 := by simpa [Gesture.plainStart] using hg
    cases h : s.chatWindow[i]? with
    | none =>
      rw [gesture_drag_none s i a b h]
      have hq : qualifying s.chatWindow (.drag i a b) = none := by
        simp [qualifying, snapshots_getElem?, h]
      rw [hq]
      exact ⟨Or.inr rfl, (fun d hd => by cases hd)⟩
    | some div =>
      have h1 := gesture_drag_at s i div a b ha h
      have hq : qualifying s.chatWindow (.drag i a b) =
          if b - a > 100 then some ⟨div.user, div.text⟩ else none := by
        simp [qualifying, snapshots_getElem?, h]
      rw [hq, h1]
      refine ⟨Or.inr ?_, ?_⟩
      · by_cases hd : b - a > 100 <;> simp [hd]
      · intro d hd'
        by_cases hd : b - a > 100
        · simpa [hd] using hd'
        · simp [hd] at hd'

theorem qualifying_congr (w w1 : List Element) (h : snapshots w1 = snapshots w) (g : Gesture) :
    qualifying w1 g = qualifying w g := by
  cases g <;> simp [qualifying, h]

theorem lastQualifying_cons (w : List Element) (g : Gesture) (gs : List Gesture) :
    lastQualifying w (g :: gs) =
      match lastQualifying w gs with
      | some d => some d
      | none => qualifying w g := by
  unfold lastQualifying
  rw [List.reverse_cons, List.filterMap_append, List.head?_append]
  cases (List.filterMap (qualifying w) gs.reverse).head? with
  | some d => rfl
  | none => cases hq : qualifying w g <;> simp [hq]

theorem lastQualifying_congr (w w1 : List Element) (h : snapshots w1 = snapshots w)
    (gs : List Gesture) : lastQualifying w1 gs = lastQualifying w gs := by
  unfold lastQualifying
  congr 2
  funext g
  exact qualifying_congr w w1 h g

theorem gestures_draft (gs : List Gesture) : ∀ s : Client,
    (∀ g ∈ gs, g.plainStart = true) →
    (gestures s gs).replyTo = none ∨
    (gestures s gs).replyTo =
      match lastQualifying s.chatWindow gs with
      | some d => some d
      | none => s.replyTo := by
  induction gs with
  | nil => intro s _; exact Or.inr rfl
  | cons g gs ih =>
    intro s hall
    obtain ⟨hg, _⟩ := gesture_effect s g (hall g (by simp))
    have hs := gesture_snapshots s g
    have hi := ih (gesture s g) (fun x hx => hall x (by simp [hx]))
    rw [lastQualifying_congr s.chatWindow _ hs gs] at hi
    have hrun : gestures s (g :: gs) = gestures (gesture s g) gs := rfl
    rw [hrun, lastQualifying_cons]
    cases hl : lastQualifying s.chatWindow gs with
    | some d => rw [hl] at hi; exact hi
    | none =>
      rw [hl] at hi
      rcases hi with hi | hi
      · exact Or.inl hi
      · rcases hg with hg | hg
        · exact Or.inl (hi.trans hg)
        · right
          rw [hi, hg]

theorem gestures_snapshots (gs : List Gesture) : ∀ s : Client,
    snapshots (gestures s gs).chatWindow = snapshots s.chatWindow := by
  induction gs with
  | nil => intro s; rfl
  | cons g gs ih =>
    intro s
    have hrun : gestures s (g :: gs) = gestures (gesture s g) gs := rfl
    rw [hrun, ih, gesture_snapshots s g]

/-- C9 (counterexample). With no draft active, a drag of the message of `bob` that starts and
ends at x-coordinate `10^21` (a drag of 0 pixels) sets the draft: the start is stored as
`1e+21`, of which `parseInt` reads `1`. -/
theorem zero_drag_sets_draft_at_exponent_start :
    oneMessageState.replyTo = none ∧
    ¬ ((1000000000000000000000 : Int) - 1000000000000000000000 > 100) ∧
    numberToString 1000000000000000000000 = "1e+21" ∧
    parseInt "1e+21" = some 1 ∧
    (gesture oneMessageState
      (.drag 0 1000000000000000000000 1000000000000000000000)).replyTo =
      some ⟨"bob", some "hi"⟩ := by
  decide

/-- C9 (amended). A drag of a rendered message from an x-coordinate `a` of magnitude below
`10^21` to `b` sets the reply draft to that message's `{user, text}` exactly when
`b - a > 100` and otherwise leaves the draft as it was; after any sequence of such drags and
cancels the draft is null or the snapshot of the most recent qualifying drag (the earlier
draft when no drag qualified), and such a qualifying drag at the end of any sequence makes
its snapshot the draft. -/
theorem drag_reply_draft (s : Client) :
    (∀ (i : Nat) (div : Element) (a b : Int), a.natAbs < 10 ^ 21 →
      s.chatWindow[i]? = some div →
      (gesture s (.drag i a b)).replyTo =
        if b - a > 100 then some ⟨div.user, div.text⟩ else s.replyTo) ∧
    (∀ gs : List Gesture, (∀ g ∈ gs, g.plainStart = true) →
      (gestures s gs).replyTo = none ∨
      (gestures s gs).replyTo =
        match lastQualifying s.chatWindow gs with
        | some d => some d
        | none => s.replyTo) ∧
    (∀ (gs : List Gesture) (g : Gesture) (d : ReplyRef), g.plainStart = true →
      qualifying s.chatWindow g = some d →
      (gestures s (gs ++ [g])).replyTo = some d) := by
  refine ⟨fun i div a b ha h => gesture_drag_at s i div a b ha h,
    fun gs hall => gestures_draft gs s hall, ?_⟩
  intro gs g d hg hq
  have hrun : gestures s (gs ++ [g]) = gesture (gestures s gs) g := by
    simp [gestures, List.foldl_append]
  rw [hrun]
  apply (gesture_effect (gestures s gs) g hg).2
  rw [qualifying_congr s.chatWindow _ (gestures_snapshots gs s) g]
  exact hq

/-- Instance of C9 (amended): dragging the message of `bob` by 101 pixels to the right makes
it the draft, and a cancel followed by a drag of exactly 100 pixels leaves no draft. -/
theorem drag_reply_draft_witness :
    (gesture oneMessageState (.drag 0 29 130)).replyTo = some ⟨"bob", some "hi"⟩ ∧
    ((gestures oneMessageState [.drag 0 29 130, .cancel, .drag 0 30 130]).replyTo = none ∨
     (gestures oneMessageState [.drag 0 29 130, .cancel, .drag 0 30 130]).replyTo =
       some ⟨"bob", some "hi"⟩) :=
  ⟨((drag_reply_draft oneMessageState).1 0 _ 29 130 (by decide) rfl).trans (by decide),
   (drag_reply_draft oneMessageState).2.1 [.drag 0 29 130, .cancel, .drag 0 30 130]
     (by decide)⟩

end LiveChat
